import Mathlib

/-!
Verification development for the `ollama_client_cli` repository
(single source file `ollama_client.py`).

The Python source is shallowly embedded: pure logic becomes Lean
functions, the mutable state of `ChatInterface` (the displayed
`messages` list, the transport `chat_history`, the `abort_stream`
event) is threaded explicitly, and the external collaborators
(`requests`, `curses`, `json`) are modelled at the interfaces the code
uses: the streamed chat response is a list of content fragments
followed by either natural exhaustion or a raised transport error, the
abort event and the pending key press are per-iteration schedules, and
a curses window records its bounds and its successful writes.
-/

namespace OllamaClientCli

/-- Concatenation of a list of strings; used to state properties about
accumulated fragment text. -/
def sjoin : List String → String
  | [] => ""
  | s :: rest => s ++ sjoin rest

/-- One entry of the transport log `OllamaClient.chat_history`: a dict
with keys `role` and `content`. -/
structure Msg where
  role : String
  content : String
  deriving DecidableEq, Repr

/-- Terminal state of one pass through `ChatInterface.stream_response`.
`raised` means an exception escaped the method uncaught (there is no
try/except around the fragment loop in the source). -/
inductive Outcome where
  | completed
  | interruptedToken
  | interruptedKey (ch : Nat)
  | raised
  deriving DecidableEq, Repr

/-- Observable result of one streaming turn.
`msgs` is `self.messages` (the displayed conversation) at the end,
`hist` is `self.client.chat_history` (the transport log) at the end,
`trace` lists the assistant texts passed to `redraw_history`, one entry
per applied fragment, `ungetched` is the key pushed back with
`curses.ungetch`, and `requestMessages` is the message list serialized
into the HTTP request when the stream is first pulled. -/
structure TurnResult where
  msgs : List (String × String)
  hist : List Msg
  trace : List String
  outcome : Outcome
  ungetched : Option Nat
  requestMessages : List Msg
  deriving DecidableEq, Repr

/-- Python `self.messages[-1] = t` on a non-empty list. -/
def setLast (ms : List (String × String)) (t : String × String) : List (String × String) :=
  ms.dropLast ++ [t]

/-- The fragment loop of `ChatInterface.stream_response` combined with
the generator `OllamaClient._streaming_chat_response` it consumes.

Arguments: `abortAt i` is the value of `self.abort_stream.is_set()`
observed at iteration `i` (the event is set externally, so it is a
schedule); `keyAt i` is the key returned by the non-blocking
`self.history_win.getch()` at iteration `i` (`none` models both `-1`
and a `curses.error`); `chunks` are the content fragments the generator
still has to yield; `fin = some ()` means that after those fragments
the underlying `_post` generator raises (network/HTTP/JSON failure)
while `fin = none` means it exhausts naturally, at which point
`_streaming_chat_response` appends the accumulated assistant text to
`chat_history` before `StopIteration` ends the `for` loop; `acc` is
`bot_response`; `msgs` and `hist` are the current display list and
transport log.

Each iteration mirrors the source order: the `for` statement pulls the
next chunk first, then the abort event is checked (plain `return`, no
rewrite of the last message), then the key poll (set the event, push
the key back, rewrite the last message to `bot_response +
"\n[interrupted]"`, return), and only then is the fragment appended and
`redraw_history` called. On the natural-exhaustion pull the generator
body appends `response_text` — equal to `acc`, since every yielded
chunk was also applied on this path — to the transport log. -/
def streamLoop (abortAt : Nat → Bool) (keyAt : Nat → Option Nat) :
    List String → Option Unit → Nat → String → List (String × String) → List Msg → TurnResult
  | [], fin, _, acc, msgs, hist =>
      match fin with
      | some _ => ⟨msgs, hist, [], Outcome.raised, none, hist⟩
      | none => ⟨msgs, hist ++ [⟨"assistant", acc⟩], [], Outcome.completed, none, hist⟩
  | c :: rest, fin, i, acc, msgs, hist =>
      if abortAt i then
        ⟨msgs, hist, [], Outcome.interruptedToken, none, hist⟩
      else
        match keyAt i with
        | some ch =>
            ⟨setLast msgs ("assistant", acc ++ "\n[interrupted]"), hist, [],
              Outcome.interruptedKey ch, some ch, hist⟩
        | none =>
            let acc2 := acc ++ c
            let r := streamLoop abortAt keyAt rest fin (i + 1) acc2
              (setLast msgs ("assistant", acc2)) hist
            { r with trace := acc2 :: r.trace }

/-- The streaming path of `ChatInterface.stream_response` for one turn:
append the `("assistant", "")` placeholder to the display list, call
`self.client.chat(user_input)` — which appends the user message to
`chat_history` eagerly and returns the (not yet started) generator —
and then run the fragment loop.  `msgs` already contains the
`("user", user_input)` entry appended by `ChatInterface.run`. -/
def stream_response (msgs : List (String × String)) (hist : List Msg) (userInput : String)
    (chunks : List String) (fin : Option Unit)
    (abortAt : Nat → Bool) (keyAt : Nat → Option Nat) : TurnResult :=
  let msgs1 := msgs ++ [("assistant", "")]
  let hist1 := hist ++ [⟨"user", userInput⟩]
  streamLoop abortAt keyAt chunks fin 0 "" msgs1 hist1

/-- Python `str.isspace`-style whitespace used by `str.strip()`,
restricted to the ASCII whitespace characters (the inputs handled by
the claims are ASCII). -/
def pyIsSpace (c : Char) : Bool :=
  (c == ' ') || (c == '\t') || (c == '\n') || (c == '\r') || (c == '\x0b') || (c == '\x0c')

/-- Python `str.strip()` with no arguments (ASCII whitespace). -/
def pyStrip (s : String) : String :=
  String.mk (((s.toList.dropWhile pyIsSpace).reverse.dropWhile pyIsSpace).reverse)

/-- Python `str.lower()` on one character (ASCII range; the command
words compared against are ASCII). -/
def pyLowerChar (c : Char) : Char :=
  if c.toNat ≥ 65 ∧ c.toNat ≤ 90 then Char.ofNat (c.toNat + 32) else c

/-- Python `str.lower()` (ASCII range). -/
def pyLower (s : String) : String :=
  String.mk (s.toList.map pyLowerChar)

/-- Classification of one input line by `ChatInterface.run`:
`user_input.strip().lower() in {"exit", "quit", ":q", ":wq"}` exits,
`user_input.strip().lower() == "clear"` clears, anything else is
dispatched as a user message. -/
inductive Command where
  | exitCmd
  | clearCmd
  | message
  deriving DecidableEq, Repr

/-- The if/elif/else chain at the top of the `while` loop in
`ChatInterface.run`. -/
def classify (input : String) : Command :=
  let t := pyLower (pyStrip input)
  if t = "exit" ∨ t = "quit" ∨ t = ":q" ∨ t = ":wq" then Command.exitCmd
  else if t = "clear" then Command.clearCmd
  else Command.message

/-- Mutable state of `ChatInterface` relevant to the session loop:
the displayed message list, the transport log owned by the client, and
whether the current `abort_stream` event is set. -/
structure ChatState where
  messages : List (String × String)
  chat_history : List Msg
  abortSet : Bool
  deriving DecidableEq, Repr

/-- ChatInterface._initialize_chat: reset the display list, reset the
client transport log, and install a fresh (un-set) `threading.Event`;
the screen clear and layout redraw have no effect on this state. -/
def initialize_chat (_s : ChatState) : ChatState :=
  ⟨[], [], false⟩

/-- Result of `ChatInterface.get_input`: either a line was read or a
`KeyboardInterrupt` arrived while reading. -/
inductive InputEvent where
  | line (s : String)
  | interrupt
  deriving DecidableEq, Repr

/-- ChatInterface.get_input: the decoded line, or the empty string when
a `KeyboardInterrupt` is caught during `getstr`. -/
def get_input : InputEvent → String
  | InputEvent.line s => s
  | InputEvent.interrupt => ""

/-- Result of one iteration of the `while True` loop in
`ChatInterface.run`: the method returns (exiting), the loop continues
with an updated state, or an uncaught exception escapes the loop. -/
inductive StepResult where
  | exiting
  | continueLoop (s : ChatState)
  | crashed (s : ChatState)
  deriving DecidableEq, Repr

/-- One iteration of the `while True` loop in `ChatInterface.run`:
read input, classify it, and either return, reset via
`_initialize_chat`, or append the user turn, replace the abort event
with a fresh one, and run `stream_response`.  A `raised` outcome means
the exception propagates out of `run` (there is no handler). After a
key-press interruption the current event has been set by the handler
inside `stream_response`. -/
def runStep (s : ChatState) (ev : InputEvent)
    (chunks : List String) (fin : Option Unit)
    (abortAt : Nat → Bool) (keyAt : Nat → Option Nat) : StepResult :=
  let user_input := get_input ev
  match classify user_input with
  | Command.exitCmd => StepResult.exiting
  | Command.clearCmd => StepResult.continueLoop (initialize_chat s)
  | Command.message =>
      let msgs1 := s.messages ++ [("user", user_input)]
      let r := stream_response msgs1 s.chat_history user_input chunks fin abortAt keyAt
      let aborted :=
        match r.outcome with
        | Outcome.interruptedToken => true
        | Outcome.interruptedKey _ => true
        | _ => false
      match r.outcome with
      | Outcome.raised => StepResult.crashed ⟨r.msgs, r.hist, aborted⟩
      | _ => StepResult.continueLoop ⟨r.msgs, r.hist, aborted⟩

/-- Successive values of `bot_response` during an uninterrupted run of
the fragment loop, starting from accumulated text `acc`: the texts
handed to `redraw_history`. -/
def prefixList (acc : String) : List String → List String
  | [] => []
  | c :: rest => (acc ++ c) :: prefixList (acc ++ c) rest

/-! Model of the JSON values and of `json.loads` as used by
`OllamaClient._post` when iterating a streamed body.  The parser is a
recursive-descent model of the external `json` library covering
objects, arrays, strings with the common escapes, integers, booleans
and null; like `json.loads` it skips leading whitespace, demands a
value, and rejects trailing non-whitespace. -/

/-- JSON value produced by one streamed line. -/
inductive JsonVal where
  | null
  | bool (b : Bool)
  | num (n : Int)
  | str (s : String)
  | arr (elems : List JsonVal)
  | obj (fields : List (String × JsonVal))

/-- JSON whitespace characters. -/
def isWs (c : Char) : Bool :=
  (c == ' ') || (c == '\t') || (c == '\n') || (c == '\r')

/-- Skip leading JSON whitespace. -/
def skipWs : List Char → List Char
  | [] => []
  | c :: rest => if isWs c then skipWs rest else c :: rest

/-- Parse the remainder of a JSON string literal after the opening
quote, handling the common escapes (the `\u` form is outside this
model). -/
def parseStringChars : List Char → List Char → Except String (String × List Char)
  | [], _ => Except.error "Unterminated string"
  | '"' :: rest, acc => Except.ok (String.mk acc.reverse, rest)
  | '\\' :: d :: rest, acc =>
      if d = '"' then parseStringChars rest ( '"' :: acc)
      else if d = '\\' then parseStringChars rest ( '\\' :: acc)
      else if d = '/' then parseStringChars rest ( '/' :: acc)
      else if d = 'n' then parseStringChars rest ( '\n' :: acc)
      else if d = 't' then parseStringChars rest ( '\t' :: acc)
      else if d = 'r' then parseStringChars rest ( '\r' :: acc)
      else if d = 'b' then parseStringChars rest (Char.ofNat 8 :: acc)
      else if d = 'f' then parseStringChars rest (Char.ofNat 12 :: acc)
      else Except.error "Invalid escape"
  | [ '\\'], _ => Except.error "Unterminated string"
  | c :: rest, acc => parseStringChars rest (c :: acc)

/-- Take a maximal run of decimal digits. -/
def takeDigits : List Char → (List Char × List Char)
  | [] => ([], [])
  | c :: rest =>
      if c.isDigit then
        let p := takeDigits rest
        (c :: p.1, p.2)
      else ([], c :: rest)

/-- Numeric value of a digit run. -/
def digitsToNat (ds : List Char) : Nat :=
  ds.foldl (fun a c => a * 10 + (c.toNat - 48)) 0

mutual

/-- Parse one JSON value; `fuel` bounds the nesting depth. -/
def parseValue : Nat → List Char → Except String (JsonVal × List Char)
  | 0, _ => Except.error "too deeply nested"
  | Nat.succ fuel, cs =>
      match skipWs cs with
      | [] => Except.error "Expecting value"
      | c :: rest =>
          if c = '"' then
            match parseStringChars rest [] with
            | Except.error e => Except.error e
            | Except.ok p => Except.ok (JsonVal.str p.1, p.2)
          else if c = 't' then
            match rest with
            | 'r' :: 'u' :: 'e' :: r2 => Except.ok (JsonVal.bool true, r2)
            | _ => Except.error "Expecting value"
          else if c = 'f' then
            match rest with
            | 'a' :: 'l' :: 's' :: 'e' :: r2 => Except.ok (JsonVal.bool false, r2)
            | _ => Except.error "Expecting value"
          else if c = 'n' then
            match rest with
            | 'u' :: 'l' :: 'l' :: r2 => Except.ok (JsonVal.null, r2)
            | _ => Except.error "Expecting value"
          else if c = '-' then
            let p := takeDigits rest
            if p.1 = [] then Except.error "Expecting value"
            else Except.ok (JsonVal.num (-(digitsToNat p.1 : Int)), p.2)
          else if c.isDigit then
            let p := takeDigits (c :: rest)
            Except.ok (JsonVal.num (digitsToNat p.1 : Int), p.2)
          else if c = '[' then parseArrayItems fuel rest []
          else if c = '{' then parseObjItems fuel rest []
          else Except.error "Expecting value"

/-- Parse the items of a JSON array after `[` or after a comma. -/
def parseArrayItems : Nat → List Char → List JsonVal → Except String (JsonVal × List Char)
  | 0, _, _ => Except.error "too deeply nested"
  | Nat.succ fuel, cs, acc =>
      match skipWs cs with
      | ']' :: r2 => Except.ok (JsonVal.arr acc, r2)
      | cs2 =>
          match parseValue fuel cs2 with
          | Except.error e => Except.error e
          | Except.ok (v, r2) =>
              match skipWs r2 with
              | ',' :: r3 => parseArrayItems fuel r3 (acc ++ [v])
              | ']' :: r3 => Except.ok (JsonVal.arr (acc ++ [v]), r3)
              | _ => Except.error "Expecting comma"

/-- Parse the fields of a JSON object after an opening brace or after a
comma. -/
def parseObjItems : Nat → List Char → List (String × JsonVal) → Except String (JsonVal × List Char)
  | 0, _, _ => Except.error "too deeply nested"
  | Nat.succ fuel, cs, acc =>
      match skipWs cs with
      | '}' :: r2 => Except.ok (JsonVal.obj acc, r2)
      | '"' :: cs2 =>
          match parseStringChars cs2 [] with
          | Except.error e => Except.error e
          | Except.ok (key, r2) =>
              match skipWs r2 with
              | ':' :: r3 =>
                  match parseValue fuel r3 with
                  | Except.error e => Except.error e
                  | Except.ok (v, r4) =>
                      match skipWs r4 with
                      | ',' :: r5 => parseObjItems fuel r5 (acc ++ [(key, v)])
                      | '}' :: r5 => Except.ok (JsonVal.obj (acc ++ [(key, v)]), r5)
                      | _ => Except.error "Expecting comma"
              | _ => Except.error "Expecting colon"
      | _ => Except.error "Expecting property name"

end

/-- Model of `json.loads`: skip leading whitespace, parse one value,
and reject trailing non-whitespace.  The fuel `s.length + 1` is enough
because every nesting level consumes at least one character. -/
def jsonLoads (s : String) : Except String JsonVal :=
  match parseValue (s.length + 1) s.toList with
  | Except.error e => Except.error e
  | Except.ok (v, rest) =>
      if skipWs rest = [] then Except.ok v else Except.error "Extra data"

/-- The streamed-body line loop of `OllamaClient._post`:
`for line in response.iter_lines(): if line: yield json.loads(line)`.
The Python truthiness test `if line:` skips exactly the empty lines;
every non-empty line is handed to `json.loads`, whose failure
propagates out of the generator. -/
def iterParsedLines : List String → Except String (List JsonVal)
  | [] => Except.ok []
  | line :: rest =>
      if line = "" then iterParsedLines rest
      else
        match jsonLoads line with
        | Except.error e => Except.error e
        | Except.ok v =>
            match iterParsedLines rest with
            | Except.error e => Except.error e
            | Except.ok vs => Except.ok (v :: vs)

/-! Model of the dynamic values involved in the non-streaming path of
`OllamaClient.chat`.  In Python, a function whose body contains a
`yield` statement is a generator function: calling it returns a
generator object immediately and runs none of its body.  `_post`
contains `yield json.loads(line)`, so `self._post("/api/chat",
payload)` evaluates to a generator object even when `stream` is false,
and the `return response.json()` line can only ever set the
`StopIteration` value.  Attribute access `.get` on a generator raises
`AttributeError`. -/

/-- Python error kinds reachable in the modelled fragment. -/
inductive PyErr where
  | attributeError
  deriving DecidableEq, Repr

/-- Dynamic Python value: a string, a dict, or a generator object. -/
inductive PyVal where
  | str (s : String)
  | dict (entries : List (String × PyVal))
  | gen

/-- Python attribute-plus-call `v.get(key, dflt)`: defined on dicts,
`AttributeError` on anything else (in particular on a generator). -/
def pyGet (v : PyVal) (key : String) (dflt : PyVal) : Except PyErr PyVal :=
  match v with
  | PyVal.dict entries =>
      match entries.find? (fun e => e.1 == key) with
      | some e => Except.ok e.2
      | none => Except.ok dflt
  | _ => Except.error PyErr.attributeError

/-- The non-streaming branch of `OllamaClient.chat`: append the user
message to `chat_history`, call `self._post("/api/chat", payload)` —
which, `_post` being a generator function, returns a generator object
without issuing any request — then evaluate
`result.get("message", {}).get("content", "[No response]")`, append the
response to `chat_history` and return it.  The pair holds the value
returned (or the exception propagated) and the final `chat_history`. -/
def chat_nonstreaming (chat_history : List Msg) (msg : String) :
    Except PyErr String × List Msg :=
  let h1 := chat_history ++ [⟨"user", msg⟩]
  let result : PyVal := PyVal.gen
  match pyGet result "message" (PyVal.dict []) with
  | Except.error e => (Except.error e, h1)
  | Except.ok m =>
      match pyGet m "content" (PyVal.str "[No response]") with
      | Except.error e => (Except.error e, h1)
      | Except.ok v =>
          let response := match v with | PyVal.str s => s | _ => ""
          (Except.ok response, h1 ++ [⟨"assistant", response⟩])

/-! Model of the curses drawing layer used by `draw_rainbow_name`,
`draw_header` and `ChatInterface.redraw_history`.  A window records its
dimensions and the writes that succeeded; `addstr` fails with
`curses.error` when the text does not fit the window (style attributes
and colors are cosmetic and not modelled).  What the claims depend on
is which call sites wrap `addstr` in try/except and which leave it
bare. -/

/-- A curses window: dimensions plus the log of successful writes
(row, column, text). -/
structure Win where
  rows : Nat
  cols : Nat
  writes : List (Nat × Nat × String)
  deriving DecidableEq, Repr

/-- Number of screen columns a string occupies (newlines advance the
cursor instead of occupying a cell). -/
def visLen (s : String) : Nat :=
  (s.toList.filter (fun c => c != '\n')).length

/-- Model of `win.addstr(y, x, s)`: succeeds and records the write when
it fits, raises `curses.error` otherwise. -/
def addstrE (w : Win) (y x : Nat) (s : String) : Except Unit Win :=
  if y < w.rows ∧ x + visLen s ≤ w.cols then
    Except.ok { w with writes := w.writes ++ [(y, x, s)] }
  else Except.error ()

/-- The character loop of `draw_rainbow_name`: each `addstr` sits in
its own try/except, so a failing write leaves the window as it was and
the loop moves on. -/
def drawNameChars (y x _frame : Nat) : Win → List (Nat × Char) → Win
  | w, [] => w
  | w, (i, ch) :: rest =>
      let w2 :=
        match addstrE w y (x + i) (String.singleton ch) with
        | Except.ok w3 => w3
        | Except.error _ => w
      drawNameChars y x _frame w2 rest

/-- Function `draw_rainbow_name(win, y, x, name, frame)`: draws the
name one character at a time; every failing draw is swallowed at that
call, so the function never raises (the color rotation driven by
`frame` is cosmetic and not recorded). -/
def draw_rainbow_name (w : Win) (y x : Nat) (name : String) (frame : Nat) : Except Unit Win :=
  Except.ok (drawNameChars y x frame w name.toList.enum)

/-- Python `str.center(width)` padding used by the header title. -/
def pyCenter (s : String) (width : Nat) : String :=
  let n := s.length
  if width ≤ n then s
  else
    let total := width - n
    let left := total / 2
    String.mk (List.replicate left ' ') ++ s ++ String.mk (List.replicate (total - left) ' ')

/-- A draw step inside a region already covered by one try/except: once
an exception has been raised (flag set) the remaining statements are
skipped; a failing `addstr` keeps the window state and sets the flag. -/
def tryStep (st : Win × Bool) (y x : Nat) (s : String) : Win × Bool :=
  if st.2 then st
  else
    match addstrE st.1 y x s with
    | Except.ok w2 => (w2, false)
    | Except.error _ => (st.1, true)

/-- Function `draw_header(win, width)`: clear plus three banner writes,
the whole body inside one try/except, so the function never raises and
a failure keeps the writes made before it. -/
def draw_header (w : Win) (width : Nat) : Except Unit Win :=
  let safe_width := max 10 (width - 1)
  let bar := String.mk (List.replicate (safe_width - 2) '─')
  let title := " Chatting with Ollama 🧠 "
  let st1 := tryStep ({ w with writes := [] }, false) 0 0 ("╭" ++ bar ++ "╮")
  let st2 := tryStep st1 1 0 ("│" ++ pyCenter title (safe_width - 2) ++ "│")
  let st3 := tryStep st2 2 0 ("╰" ++ bar ++ "╯")
  Except.ok st3.1

/-- Python `str.splitlines()` restricted to the newline separator: no
trailing empty element, and the empty string gives an empty list. -/
def splitlinesAux : List Char → List Char → List String
  | [], [] => []
  | [], acc => [String.mk acc.reverse]
  | '\n' :: rest, acc => String.mk acc.reverse :: splitlinesAux rest []
  | c :: rest, acc => splitlinesAux rest (c :: acc)

/-- Python `text.splitlines()` as used by `redraw_history`. -/
def pySplitlines (s : String) : List String :=
  splitlinesAux s.toList []

/-- Python `l[-k:]` for a possibly non-positive `k`, as in
`self.messages[-(self.max_y - self.input_height - self.header_height - 1):]`. -/
def pyTailSlice (l : List (String × String)) (k : Int) : List (String × String) :=
  if 0 < k then l.drop (l.length - k.toNat) else l.drop ((-k).toNat)

/-- The inner line loop of `redraw_history` for one message: before
each line the bound `y >= max_y - input_height - header_height - 1`
breaks out; otherwise the line is drawn with bare `addstr` calls whose
`curses.error` would propagate.  Assistant lines are written at column
2; user lines are the two writes `"You: "` at column 0 and the line at
the cursor position, column 5. -/
def drawMsgLines (isAssistant : Bool) (bound : Int) :
    Win → Nat → List String → Except Unit (Win × Nat)
  | w, y, [] => Except.ok (w, y)
  | w, y, line :: rest =>
      if (y : Int) ≥ bound then Except.ok (w, y)
      else
        if isAssistant then
          match addstrE w y 2 (line ++ "\n") with
          | Except.error e => Except.error e
          | Except.ok w2 => drawMsgLines true bound w2 (y + 1) rest
        else
          match addstrE w y 0 "You: " with
          | Except.error e => Except.error e
          | Except.ok w2 =>
              match addstrE w2 y 5 (line ++ "\n") with
              | Except.error e => Except.error e
              | Except.ok w3 => drawMsgLines false bound w3 (y + 1) rest

/-- The message loop of `redraw_history`: an assistant message first
gets its name label via `draw_rainbow_name` (which cannot raise) and
advances one row, then its lines; a user message just gets its lines.
Errors from the bare line draws propagate. -/
def redrawMsgs (assistantName : String) (frame : Nat) (bound : Int) :
    Win → Nat → List (String × String) → Except Unit Win
  | w, _, [] => Except.ok w
  | w, y, (role, text) :: rest =>
      let lines := pySplitlines text
      if role = "assistant" then
        match draw_rainbow_name w y 0 (assistantName ++ ":") frame with
        | Except.error e => Except.error e
        | Except.ok w1 =>
            match drawMsgLines true bound w1 (y + 1) lines with
            | Except.error e => Except.error e
            | Except.ok p => redrawMsgs assistantName frame bound p.1 p.2 rest
      else
        match drawMsgLines false bound w y lines with
        | Except.error e => Except.error e
        | Except.ok p => redrawMsgs assistantName frame bound p.1 p.2 rest

/-- Method `ChatInterface.redraw_history(frame)`: clear the history
window (dimensions fixed by `draw_layout`: `max_y - input_height -
header_height` rows by `max_x` columns, with `input_height =
header_height = 3`), slice the last messages, and draw them from row 0.
The `addstr` calls for message lines are not wrapped in try/except, so
a single failing draw aborts the whole redraw and the `curses.error`
propagates to the caller. -/
def redraw_history (maxY maxX : Nat) (assistantName : String) (frame : Nat)
    (messages : List (String × String)) : Except Unit Win :=
  let bound : Int := (maxY : Int) - 3 - 3 - 1
  let win : Win := ⟨maxY - 3 - 3, maxX, []⟩
  redrawMsgs assistantName frame bound win 0 (pyTailSlice messages bound)

/-! Helper lemmas about the fragment loop and the trace of displayed
texts. -/

/-- Rewriting the last element of a list with a known last element. -/
theorem setLast_concat (ms : List (String × String)) (t0 t : String × String) :
    setLast (ms ++ [t0]) t = ms ++ [t] := by
  simp [setLast]

/-- Concatenation distributes over list append. -/
theorem sjoin_append (a b : List String) : sjoin (a ++ b) = sjoin a ++ sjoin b := by
  induction a with
  | nil => simp [sjoin, String.empty_append]
  | cons c rest ih => simp [sjoin, ih, String.append_assoc]

/-- The displayed-text trace has one entry per fragment. -/
theorem prefixList_length (l : List String) : ∀ acc, (prefixList acc l).length = l.length := by
  induction l with
  | nil => intro acc; rfl
  | cons c rest ih => intro acc; simp [prefixList, ih]

/-- Entry `k` of the displayed-text trace is the concatenation of the
first `k + 1` fragments appended to the starting text. -/
theorem prefixList_getElem (l : List String) :
    ∀ (acc : String) (k : Nat), k < l.length →
      (prefixList acc l)[k]? = some (acc ++ sjoin (l.take (k + 1))) := by
  induction l with
  | nil => intro acc k h; simp at h
  | cons c rest ih =>
      intro acc k h
      cases k with
      | zero => simp [prefixList, sjoin, String.append_empty]
      | succ k2 =>
          simp only [prefixList, List.getElem?_cons_succ]
          rw [ih (acc ++ c) k2 (by simpa using h)]
          simp [sjoin, String.append_assoc]

/-- Full evaluation of the fragment loop when the abort event is never
set, no key arrives, and the stream exhausts naturally: every fragment
is applied, the trace is the prefix sequence, and the generator
appends the accumulated text to the transport log. -/
theorem streamLoop_clean (ab : Nat → Bool) (key : Nat → Option Nat)
    (hab : ∀ i, ab i = false) (hkey : ∀ i, key i = none) :
    ∀ (chunks : List String) (i : Nat) (acc : String) (ms : List (String × String)) (hist : List Msg),
      streamLoop ab key chunks none i acc (ms ++ [("assistant", acc)]) hist =
        ⟨ms ++ [("assistant", acc ++ sjoin chunks)],
          hist ++ [⟨"assistant", acc ++ sjoin chunks⟩],
          prefixList acc chunks, Outcome.completed, none, hist⟩ := by
  intro chunks
  induction chunks with
  | nil =>
      intro i acc ms hist
      simp [streamLoop, sjoin, prefixList, String.append_empty]
  | cons c rest ih =>
      intro i acc ms hist
      simp only [streamLoop, hab i, hkey i, Bool.false_eq_true, if_false, setLast_concat]
      rw [ih (i + 1) (acc ++ c) ms hist]
      simp [prefixList, sjoin, String.append_assoc]

/-- Evaluation of the fragment loop when the abort event is first seen
set at iteration `k` (with clean iterations before): the loop returns
immediately with the first `k` fragments applied and the last message
left as their plain concatenation, no rewrite and no key push-back. -/
theorem streamLoop_abort (ab : Nat → Bool) (key : Nat → Option Nat) :
    ∀ (k : Nat) (chunks : List String) (fin : Option Unit) (i : Nat) (acc : String)
      (ms : List (String × String)) (hist : List Msg),
      k < chunks.length →
      (∀ d, d < k → ab (i + d) = false) →
      (∀ d, d < k → key (i + d) = none) →
      ab (i + k) = true →
      streamLoop ab key chunks fin i acc (ms ++ [("assistant", acc)]) hist =
        ⟨ms ++ [("assistant", acc ++ sjoin (chunks.take k))], hist,
          prefixList acc (chunks.take k), Outcome.interruptedToken, none, hist⟩ := by
  intro k
  induction k with
  | zero =>
      intro chunks fin i acc ms hist hlen _ _ habk
      cases chunks with
      | nil => simp at hlen
      | cons c rest =>
          rw [show i + 0 = i from rfl] at habk
          simp [streamLoop, habk, sjoin, prefixList, String.append_empty]
  | succ k2 ih =>
      intro chunks fin i acc ms hist hlen hab hkey habk
      cases chunks with
      | nil => simp at hlen
      | cons c rest =>
          have h0 : ab i = false := by simpa using hab 0 (Nat.succ_pos k2)
          have k0 : key i = none := by simpa using hkey 0 (Nat.succ_pos k2)
          simp only [streamLoop, h0, k0, Bool.false_eq_true, if_false, setLast_concat]
          rw [ih rest fin (i + 1) (acc ++ c) ms hist (by simpa using hlen)
            (fun d hd => by
              have h := hab (d + 1) (Nat.succ_lt_succ hd)
              have e : i + 1 + d = i + (d + 1) := by omega
              rw [e]; exact h)
            (fun d hd => by
              have h := hkey (d + 1) (Nat.succ_lt_succ hd)
              have e : i + 1 + d = i + (d + 1) := by omega
              rw [e]; exact h)
            (by
              have e : i + 1 + k2 = i + (k2 + 1) := by omega
              rw [e]; exact habk)]
          simp [prefixList, sjoin, String.append_assoc, List.take_succ_cons]

/-- Evaluation of the fragment loop when a key press is first detected
at iteration `k` (abort event unset, clean iterations before): the last
message is rewritten to the concatenation of the first `k` fragments
plus the interruption marker and the key is pushed back. -/
theorem streamLoop_key (ab : Nat → Bool) (key : Nat → Option Nat) :
    ∀ (k : Nat) (chunks : List String) (fin : Option Unit) (ch : Nat) (i : Nat) (acc : String)
      (ms : List (String × String)) (hist : List Msg),
      k < chunks.length →
      (∀ d, d < k → ab (i + d) = false) →
      (∀ d, d < k → key (i + d) = none) →
      ab (i + k) = false →
      key (i + k) = some ch →
      streamLoop ab key chunks fin i acc (ms ++ [("assistant", acc)]) hist =
        ⟨ms ++ [("assistant", acc ++ (sjoin (chunks.take k) ++ "\n[interrupted]"))], hist,
          prefixList acc (chunks.take k), Outcome.interruptedKey ch, some ch, hist⟩ := by
  intro k
  induction k with
  | zero =>
      intro chunks fin ch i acc ms hist hlen _ _ habk hkeyk
      cases chunks with
      | nil => simp at hlen
      | cons c rest =>
          rw [show i + 0 = i from rfl] at habk hkeyk
          simp [streamLoop, habk, hkeyk, setLast_concat, sjoin, prefixList,
            String.empty_append, String.append_empty]
  | succ k2 ih =>
      intro chunks fin ch i acc ms hist hlen hab hkey habk hkeyk
      cases chunks with
      | nil => simp at hlen
      | cons c rest =>
          have h0 : ab i = false := by simpa using hab 0 (Nat.succ_pos k2)
          have k0 : key i = none := by simpa using hkey 0 (Nat.succ_pos k2)
          simp only [streamLoop, h0, k0, Bool.false_eq_true, if_false, setLast_concat]
          rw [ih rest fin ch (i + 1) (acc ++ c) ms hist (by simpa using hlen)
            (fun d hd => by
              have h := hab (d + 1) (Nat.succ_lt_succ hd)
              have e : i + 1 + d = i + (d + 1) := by omega
              rw [e]; exact h)
            (fun d hd => by
              have h := hkey (d + 1) (Nat.succ_lt_succ hd)
              have e : i + 1 + d = i + (d + 1) := by omega
              rw [e]; exact h)
            (by
              have e : i + 1 + k2 = i + (k2 + 1) := by omega
              rw [e]; exact habk)
            (by
              have e : i + 1 + k2 = i + (k2 + 1) := by omega
              rw [e]; exact hkeyk)]
          simp [prefixList, sjoin, String.append_assoc, List.take_succ_cons]

/-- Evaluation of the fragment loop when the generator raises after
its fragments and neither cancellation source fires: the exception
propagates with all fragments applied and the transport log untouched. -/
theorem streamLoop_raised (ab : Nat → Bool) (key : Nat → Option Nat)
    (hab : ∀ i, ab i = false) (hkey : ∀ i, key i = none) :
    ∀ (chunks : List String) (i : Nat) (acc : String) (ms : List (String × String)) (hist : List Msg),
      streamLoop ab key chunks (some ()) i acc (ms ++ [("assistant", acc)]) hist =
        ⟨ms ++ [("assistant", acc ++ sjoin chunks)], hist,
          prefixList acc chunks, Outcome.raised, none, hist⟩ := by
  intro chunks
  induction chunks with
  | nil =>
      intro i acc ms hist
      simp [streamLoop, sjoin, prefixList, String.append_empty]
  | cons c rest ih =>
      intro i acc ms hist
      simp only [streamLoop, hab i, hkey i, Bool.false_eq_true, if_false, setLast_concat]
      rw [ih (i + 1) (acc ++ c) ms hist]
      simp [prefixList, sjoin, String.append_assoc]

/-- For any schedules, the fragment loop appends exactly one assistant
entry to the transport log when it completes, and none otherwise. -/
theorem streamLoop_hist (ab : Nat → Bool) (key : Nat → Option Nat) :
    ∀ (chunks : List String) (fin : Option Unit) (i : Nat) (acc : String)
      (ms : List (String × String)) (hist : List Msg),
      ((streamLoop ab key chunks fin i acc ms hist).outcome = Outcome.completed →
        (streamLoop ab key chunks fin i acc ms hist).hist =
          hist ++ [⟨"assistant", acc ++ sjoin chunks⟩]) ∧
      ((streamLoop ab key chunks fin i acc ms hist).outcome ≠ Outcome.completed →
        (streamLoop ab key chunks fin i acc ms hist).hist = hist) := by
  intro chunks
  induction chunks with
  | nil =>
      intro fin i acc ms hist
      cases fin with
      | some u => simp [streamLoop]
      | none => simp [streamLoop, sjoin, String.append_empty]
  | cons c rest ih =>
      intro fin i acc ms hist
      by_cases habi : ab i = true
      · simp [streamLoop, habi]
      · have habi2 : ab i = false := by simpa using habi
        cases hk : key i with
        | some ch => simp [streamLoop, habi2, hk]
        | none =>
            have h := ih fin (i + 1) (acc ++ c) (setLast ms ("assistant", acc ++ c)) hist
            simp only [streamLoop, habi2, hk, Bool.false_eq_true, if_false]
            constructor
            · intro hc
              have := h.1 (by simpa using hc)
              simpa [sjoin, String.append_assoc] using this
            · intro hc
              have := h.2 (by simpa using hc)
              simpa using this

/-- Skipping whitespace consumes a fully-whitespace character list. -/
theorem skipWs_all (cs : List Char) (h : cs.all isWs = true) : skipWs cs = [] := by
  induction cs with
  | nil => rfl
  | cons c rest ih =>
      simp only [List.all_cons, Bool.and_eq_true] at h
      simp [skipWs, h.1, ih h.2]

/-- Claim C1 counterexample: with fragments `["a", "b"]` and the abort
event (cancellation token) becoming set after exactly one fragment has
been applied, the loop returns with the displayed assistant text equal
to `"a"` — not `"a" ++ "\n[interrupted]"` as the claim requires for
cancellation via the token.  The rewrite with the interruption marker
happens only on the detected key-press path of
`ChatInterface.stream_response`. -/
theorem C1_counterexample :
    (stream_response [] [] "hi" ["a", "b"] none (fun i => i == 1) (fun _ => none)).outcome =
      Outcome.interruptedToken ∧
    (stream_response [] [] "hi" ["a", "b"] none (fun i => i == 1) (fun _ => none)).msgs =
      [("assistant", "a")] ∧
    "a" ≠ "a" ++ "\n[interrupted]" := by
  refine ⟨rfl, rfl, by decide⟩

/-- Claim C1, amended: if cancellation is observed after exactly `k`
fragments have been applied then no fragment `k + 1` or later is ever
applied (the final text and the redraw trace stop at the first `k`
fragments).  On a detected key-press the final displayed text is the
concatenation of the first `k` fragments followed by the
`"\n[interrupted]"` marker and the key is pushed back; on the
cancellation token being set the loop instead returns immediately and
the displayed text stays the plain concatenation of the first `k`
fragments, with no marker and no key push-back. -/
theorem C1_interruption (msgs : List (String × String)) (hist : List Msg) (input : String)
    (chunks : List String) (fin : Option Unit) (ab : Nat → Bool) (key : Nat → Option Nat)
    (k : Nat) (hk : k < chunks.length)
    (hab : ∀ d, d < k → ab d = false) (hkey : ∀ d, d < k → key d = none) :
    (ab k = true →
      stream_response msgs hist input chunks fin ab key =
        ⟨msgs ++ [("assistant", sjoin (chunks.take k))], hist ++ [⟨"user", input⟩],
          prefixList "" (chunks.take k), Outcome.interruptedToken, none,
          hist ++ [⟨"user", input⟩]⟩) ∧
    (∀ ch, ab k = false → key k = some ch →
      stream_response msgs hist input chunks fin ab key =
        ⟨msgs ++ [("assistant", sjoin (chunks.take k) ++ "\n[interrupted]")],
          hist ++ [⟨"user", input⟩],
          prefixList "" (chunks.take k), Outcome.interruptedKey ch, some ch,
          hist ++ [⟨"user", input⟩]⟩) := by
  constructor
  · intro habk
    have h := streamLoop_abort ab key k chunks fin 0 "" msgs (hist ++ [⟨"user", input⟩])
      hk (fun d hd => by simpa using hab d hd) (fun d hd => by simpa using hkey d hd)
      (by simpa using habk)
    simpa [stream_response, String.empty_append] using h
  · intro ch habk hkeyk
    have h := streamLoop_key ab key k chunks fin ch 0 "" msgs (hist ++ [⟨"user", input⟩])
      hk (fun d hd => by simpa using hab d hd) (fun d hd => by simpa using hkey d hd)
      (by simpa using habk) (by simpa using hkeyk)
    simpa [stream_response, String.empty_append] using h

/-- Claim C1 witness: both branches of the amended statement evaluated
at concrete inputs, cancellation arriving after one applied fragment. -/
theorem C1_witness :
    ((fun i => decide (1 ≤ i)) 1 = true ∧
      stream_response [] [] "hi" ["He", "llo"] none (fun i => decide (1 ≤ i)) (fun _ => none) =
        ⟨[("assistant", "He")], [⟨"user", "hi"⟩], ["He"], Outcome.interruptedToken, none,
          [⟨"user", "hi"⟩]⟩) ∧
    stream_response [] [] "hi" ["He", "llo"] none (fun _ => false)
        (fun i => if i == 1 then some 10 else none) =
      ⟨[("assistant", "He\n[interrupted]")], [⟨"user", "hi"⟩], ["He"],
        Outcome.interruptedKey 10, some 10, [⟨"user", "hi"⟩]⟩ := by
  refine ⟨⟨by decide, ?_⟩, ?_⟩
  · have h := (C1_interruption [] [] "hi" ["He", "llo"] none (fun i => decide (1 ≤ i))
      (fun _ => none) 1 (by decide) (by decide) (fun d _ => rfl)).1 (by decide)
    simpa using h
  · have h := (C1_interruption [] [] "hi" ["He", "llo"] none (fun _ => false)
      (fun i => if i == 1 then some 10 else none) 1 (by decide) (fun d _ => rfl)
      (by decide)).2 10 rfl (by decide)
    simpa using h

/-- Claim C2 counterexample: with a transport that fails at the first
pull (connection refused), one session-loop iteration on input `"hi"`
ends with the exception escaping the loop (`crashed`) and the displayed
assistant entry still the empty placeholder — no inline error marker is
shown and the Session Loop does not continue, contrary to the claim. -/
theorem C2_counterexample :
    runStep ⟨[], [], false⟩ (InputEvent.line "hi") [] (some ()) (fun _ => false) (fun _ => none) =
      StepResult.crashed ⟨[("user", "hi"), ("assistant", "")], [⟨"user", "hi"⟩], false⟩ := rfl

/-- Claim C2, amended: when the underlying chat request fails, the
error raised by the transport propagates uncaught out of
`stream_response` and hence out of the `run` loop; the assistant entry
keeps the fragment text accumulated before the failure instead of an
inline error marker.  The part of the claim that does hold: nothing
further is appended to the Transport Log (only the user message,
appended before the request, is present). -/
theorem C2_transport_error (s : ChatState) (input : String) (chunks : List String)
    (ab : Nat → Bool) (key : Nat → Option Nat)
    (hab : ∀ i, ab i = false) (hkey : ∀ i, key i = none)
    (hmsg : classify input = Command.message) :
    (stream_response (s.messages ++ [("user", input)]) s.chat_history input chunks
        (some ()) ab key).outcome = Outcome.raised ∧
    (stream_response (s.messages ++ [("user", input)]) s.chat_history input chunks
        (some ()) ab key).hist = s.chat_history ++ [⟨"user", input⟩] ∧
    (stream_response (s.messages ++ [("user", input)]) s.chat_history input chunks
        (some ()) ab key).msgs =
      s.messages ++ [("user", input), ("assistant", sjoin chunks)] ∧
    runStep s (InputEvent.line input) chunks (some ()) ab key =
      StepResult.crashed ⟨s.messages ++ [("user", input), ("assistant", sjoin chunks)],
        s.chat_history ++ [⟨"user", input⟩], false⟩ := by
  have h := streamLoop_raised ab key hab hkey chunks 0 ""
    (s.messages ++ [("user", input)]) (s.chat_history ++ [⟨"user", input⟩])
  have hsr : stream_response (s.messages ++ [("user", input)]) s.chat_history input chunks
      (some ()) ab key =
      ⟨(s.messages ++ [("user", input)]) ++ [("assistant", sjoin chunks)],
        s.chat_history ++ [⟨"user", input⟩], prefixList "" chunks, Outcome.raised, none,
        s.chat_history ++ [⟨"user", input⟩]⟩ := by
    simpa [stream_response, String.empty_append] using h
  refine ⟨by rw [hsr], by rw [hsr], by rw [hsr]; simp, ?_⟩
  simp only [runStep, get_input, hmsg]
  rw [hsr]
  simp

/-- Claim C2 witness: a turn whose transport fails after yielding one
fragment crashes the loop with that fragment still displayed. -/
theorem C2_witness :
    runStep ⟨[], [], false⟩ (InputEvent.line "hello") ["par"] (some ())
        (fun _ => false) (fun _ => none) =
      StepResult.crashed ⟨[("user", "hello"), ("assistant", "par")],
        [⟨"user", "hello"⟩], false⟩ := by
  have h := (C2_transport_error ⟨[], [], false⟩ "hello" ["par"] (fun _ => false)
    (fun _ => none) (fun _ => rfl) (fun _ => rfl) rfl).2.2.2
  simpa using h

/-- Claim C3 evaluated at failing inputs: because `_post` is a
generator function, the non-streaming branch of `OllamaClient.chat`
applies `.get` to a generator object and raises `AttributeError` before
any response content can be read; the transport log keeps only the user
message.  The claim — matching the docstrings of `chat` and `_post` —
says the full content string (or the `"[No response]"` placeholder)
should be returned and the assistant entry appended, so the code
contradicts its own documentation here. -/
theorem C3_nonstreaming_crash :
    chat_nonstreaming [] "hi" = (Except.error PyErr.attributeError, [⟨"user", "hi"⟩]) ∧
    chat_nonstreaming [⟨"user", "a"⟩, ⟨"assistant", "b"⟩] "next" =
      (Except.error PyErr.attributeError,
        [⟨"user", "a"⟩, ⟨"assistant", "b"⟩, ⟨"user", "next"⟩]) := ⟨rfl, rfl⟩

/-- Claim C4: after an interrupted streaming turn (token or key press)
the Transport Log holds no assistant entry for the turn — only the user
message appended before the request; after a turn whose stream drains
to natural exhaustion it holds exactly one assistant entry, equal to
the concatenation of all yielded fragments. -/
theorem C4_transport_log (msgs : List (String × String)) (hist : List Msg) (input : String)
    (chunks : List String) (fin : Option Unit) (ab : Nat → Bool) (key : Nat → Option Nat) :
    ((stream_response msgs hist input chunks fin ab key).outcome = Outcome.interruptedToken ∨
      (∃ ch, (stream_response msgs hist input chunks fin ab key).outcome =
        Outcome.interruptedKey ch) →
      (stream_response msgs hist input chunks fin ab key).hist = hist ++ [⟨"user", input⟩]) ∧
    ((stream_response msgs hist input chunks fin ab key).outcome = Outcome.completed →
      (stream_response msgs hist input chunks fin ab key).hist =
        hist ++ [⟨"user", input⟩, ⟨"assistant", sjoin chunks⟩]) := by
  have h := streamLoop_hist ab key chunks fin 0 "" (msgs ++ [("assistant", "")])
    (hist ++ [⟨"user", input⟩])
  constructor
  · intro hcase
    have hne : (stream_response msgs hist input chunks fin ab key).outcome ≠
        Outcome.completed := by
      rcases hcase with h1 | ⟨ch, h2⟩
      · rw [h1]; intro hcon; exact Outcome.noConfusion hcon
      · rw [h2]; intro hcon; exact Outcome.noConfusion hcon
    have := h.2 (by simpa [stream_response] using hne)
    simpa [stream_response] using this
  · intro hc
    have := h.1 (by simpa [stream_response] using hc)
    simp only [stream_response] at this ⊢
    rw [this]
    simp [String.empty_append]

/-- Claim C4 witness: the two spec scenarios — a drained stream yields
exactly one assistant log entry with the full text, a key-interrupted
stream yields none. -/
theorem C4_witness :
    (stream_response [] [] "hi" ["He", "llo", " there"] none (fun _ => false)
        (fun _ => none)).hist =
      [⟨"user", "hi"⟩, ⟨"assistant", "Hello there"⟩] ∧
    (stream_response [] [] "hi" ["He", "llo"] none (fun _ => false)
        (fun i => if i == 1 then some 10 else none)).hist = [⟨"user", "hi"⟩] := by
  constructor
  · have h := (C4_transport_log [] [] "hi" ["He", "llo", " there"] none (fun _ => false)
      (fun _ => none)).2 rfl
    simpa using h
  · have h := (C4_transport_log [] [] "hi" ["He", "llo"] none (fun _ => false)
      (fun i => if i == 1 then some 10 else none)).1 (Or.inr ⟨10, rfl⟩)
    simpa using h

/-- Claim C5: for a fragment sequence consumed without cancellation,
the displayed assistant text after consuming the first `k` fragments
equals their concatenation, for every `k` between 1 and the length of
the sequence, and the trace of displayed texts is prefix-growing: every
later entry extends every earlier one. -/
theorem C5_prefix_growth (msgs : List (String × String)) (hist : List Msg) (input : String)
    (chunks : List String) (ab : Nat → Bool) (key : Nat → Option Nat) (k : Nat)
    (hab : ∀ i, ab i = false) (hkey : ∀ i, key i = none)
    (hk1 : 1 ≤ k) (hk2 : k ≤ chunks.length) :
    (stream_response msgs hist input chunks none ab key).trace[k - 1]? =
      some (sjoin (chunks.take k)) ∧
    (∀ i j, i ≤ j →
      j < (stream_response msgs hist input chunks none ab key).trace.length →
      (stream_response msgs hist input chunks none ab key).trace[i]? =
          some (sjoin (chunks.take (i + 1))) ∧
        ∃ t, (stream_response msgs hist input chunks none ab key).trace[j]? =
          some (sjoin (chunks.take (i + 1)) ++ t)) := by
  have h := streamLoop_clean ab key hab hkey chunks 0 "" msgs (hist ++ [⟨"user", input⟩])
  have hsr : (stream_response msgs hist input chunks none ab key).trace =
      prefixList "" chunks := by
    simp only [stream_response]
    rw [h]
  rw [hsr]
  constructor
  · rw [prefixList_getElem chunks "" (k - 1) (by omega)]
    rw [show k - 1 + 1 = k from by omega]
    simp [String.empty_append]
  · intro i j hij hj
    rw [prefixList_length] at hj
    constructor
    · rw [prefixList_getElem chunks "" i (by omega)]
      simp [String.empty_append]
    · refine ⟨sjoin ((chunks.drop (i + 1)).take (j - i)), ?_⟩
      rw [prefixList_getElem chunks "" j hj]
      rw [show j + 1 = (i + 1) + (j - i) from by omega, List.take_add, sjoin_append]
      simp [String.empty_append]

/-- Claim C5 witness: the spec scenario `["He", "llo", " there"]`,
where the second displayed text is `"Hello"` and the third extends
it. -/
theorem C5_witness :
    (stream_response [] [] "hi" ["He", "llo", " there"] none (fun _ => false)
        (fun _ => none)).trace[1]? = some "Hello" ∧
    (∃ t, (stream_response [] [] "hi" ["He", "llo", " there"] none (fun _ => false)
        (fun _ => none)).trace[2]? = some ("Hello" ++ t)) := by
  have h := C5_prefix_growth [] [] "hi" ["He", "llo", " there"] (fun _ => false)
    (fun _ => none) 2 (fun _ => rfl) (fun _ => rfl) (by decide) (by decide)
  have h2 := h.2 1 2 (by decide) (by simpa using by decide)
  exact ⟨by simpa using h.1, by simpa using h2.2⟩

/-- Claim C6 counterexample: a whitespace-only (but non-empty) streamed
line is not skipped — the Python truthiness guard `if line:` only skips
empty lines, so the single-space line reaches `json.loads`, which fails
with a decode error instead of producing no fragment and no error. -/
theorem C6_counterexample :
    iterParsedLines [" "] = Except.error "Expecting value" := rfl

/-- Claim C6, amended: exactly the empty lines of a streamed body are
skipped; every non-empty line — including whitespace-only lines — is
handed to the JSON parser, so a whitespace-only line raises a decode
error, a non-empty malformed line propagates its parse error, and a
well-formed line contributes its parsed value. -/
theorem C6_line_handling :
    (∀ rest : List String, iterParsedLines ("" :: rest) = iterParsedLines rest) ∧
    (∀ (l : String) (rest : List String), l ≠ "" → l.toList.all isWs = true →
      iterParsedLines (l :: rest) = Except.error "Expecting value") ∧
    (∀ (l : String) (rest : List String) (e : String), l ≠ "" →
      jsonLoads l = Except.error e → iterParsedLines (l :: rest) = Except.error e) ∧
    (∀ (l : String) (rest : List String) (v : JsonVal) (vs : List JsonVal), l ≠ "" →
      jsonLoads l = Except.ok v → iterParsedLines rest = Except.ok vs →
      iterParsedLines (l :: rest) = Except.ok (v :: vs)) := by
  refine ⟨fun rest => by simp [iterParsedLines], ?_, ?_, ?_⟩
  · intro l rest hne hws
    have hload : jsonLoads l = Except.error "Expecting value" := by
      have hskip : skipWs l.data = [] := skipWs_all l.data (by simpa [String.toList] using hws)
      simp [jsonLoads, parseValue, hskip]
    simp [iterParsedLines, hne, hload]
  · intro l rest e hne hload
    simp [iterParsedLines, hne, hload]
  · intro l rest v vs hne hload hrest
    simp [iterParsedLines, hne, hload, hrest]

/-- Claim C6 witness: an empty line is skipped in front of a later
line, and a tab-plus-space line makes the stream fail with the decode
error. -/
theorem C6_witness :
    iterParsedLines ["", "null"] = iterParsedLines ["null"] ∧
    iterParsedLines ["\t ", "42"] = Except.error "Expecting value" := by
  constructor
  · exact (C6_line_handling).1 ["null"]
  · exact (C6_line_handling).2.1 "\t " ["42"] (by decide) (by decide)

/-- Claim C7 counterexample: in a 10-row, 3-column terminal the first
history line draw (`addstr(y, 0, "You: ")`, 5 columns wide) fails and —
because the `addstr` calls inside `redraw_history` are not wrapped in
try/except — the `curses.error` aborts the whole redraw and propagates
to the caller, contrary to the claim that every failing draw call is
swallowed at the point of that call. -/
theorem C7_counterexample :
    redraw_history 10 3 "Llama" 0 [("user", "hello")] = Except.error () := rfl

/-- Claim C7, amended: draw failures are swallowed per character
inside `draw_rainbow_name` and around the whole banner body inside
`draw_header`, so those two functions never propagate an error to the
caller; the per-line `addstr` calls in `redraw_history` however are
unguarded, and a failing line draw there aborts the redraw and
propagates. -/
theorem C7_guarded_draws (w : Win) (y x frame width : Nat) (name : String) :
    (∃ w2, draw_rainbow_name w y x name frame = Except.ok w2) ∧
    (∃ w3, draw_header w width = Except.ok w3) :=
  ⟨⟨_, rfl⟩, ⟨_, rfl⟩⟩

/-- Claim C7 witness: a 1-row, 4-column window, where most of the
character and banner writes are out of bounds, still draws without an
error escaping. -/
theorem C7_witness :
    (∃ w2, draw_rainbow_name ⟨1, 4, []⟩ 0 0 "Llama:" 5 = Except.ok w2) ∧
    (∃ w3, draw_header ⟨1, 4, []⟩ 4 = Except.ok w3) :=
  C7_guarded_draws ⟨1, 4, []⟩ 0 0 5 4 "Llama:"

/-- Claim C8: command classification is applied to the stripped,
lowercased input: it yields the exit command exactly when that form is
one of `"exit"`, `"quit"`, `":q"`, `":wq"`, the clear command exactly
when it is `"clear"`, and a user-message dispatch otherwise; one
session-loop iteration terminates the loop exactly when the input
classifies as the exit command. -/
theorem C8_command_classification (input : String) :
    (classify input = Command.exitCmd ↔
      pyLower (pyStrip input) = "exit" ∨ pyLower (pyStrip input) = "quit" ∨
      pyLower (pyStrip input) = ":q" ∨ pyLower (pyStrip input) = ":wq") ∧
    (classify input = Command.clearCmd ↔ pyLower (pyStrip input) = "clear") ∧
    (classify input = Command.message ↔
      (¬(pyLower (pyStrip input) = "exit" ∨ pyLower (pyStrip input) = "quit" ∨
        pyLower (pyStrip input) = ":q" ∨ pyLower (pyStrip input) = ":wq") ∧
       pyLower (pyStrip input) ≠ "clear")) ∧
    (∀ (s : ChatState) (chunks : List String) (fin : Option Unit) (ab : Nat → Bool)
        (key : Nat → Option Nat),
      runStep s (InputEvent.line input) chunks fin ab key = StepResult.exiting ↔
        classify input = Command.exitCmd) := by
  by_cases h1 : pyLower (pyStrip input) = "exit" ∨ pyLower (pyStrip input) = "quit" ∨
      pyLower (pyStrip input) = ":q" ∨ pyLower (pyStrip input) = ":wq"
  · have hc : classify input = Command.exitCmd := by simp [classify, h1]
    refine ⟨by simp [hc, h1], ?_, ?_, ?_⟩
    · rw [hc]
      constructor
      · intro hcon; exact absurd hcon (by simp)
      · intro hcl
        exfalso
        rcases h1 with h | h | h | h <;> rw [hcl] at h <;> simp at h
    · rw [hc]
      constructor
      · intro hcon; exact absurd hcon (by simp)
      · rintro ⟨hn, _⟩; exact absurd h1 hn
    · intro s chunks fin ab key
      constructor
      · intro _; exact hc
      · intro _; simp [runStep, get_input, hc]
  · by_cases h2 : pyLower (pyStrip input) = "clear"
    · have hc : classify input = Command.clearCmd := by simp [classify, h1, h2]
      refine ⟨?_, by simp [hc, h2], ?_, ?_⟩
      · rw [hc]
        constructor
        · intro hcon; exact absurd hcon (by simp)
        · intro hh; exact absurd hh h1
      · rw [hc]
        constructor
        · intro hcon; exact absurd hcon (by simp)
        · rintro ⟨_, hn2⟩; exact absurd h2 hn2
      · intro s chunks fin ab key
        constructor
        · intro hr; exfalso; simp [runStep, get_input, hc] at hr
        · intro hcon; rw [hc] at hcon; exact absurd hcon (by simp)
    · have hc : classify input = Command.message := by simp [classify, h1, h2]
      refine ⟨?_, ?_, by simp [hc, h1, h2], ?_⟩
      · rw [hc]
        constructor
        · intro hcon; exact absurd hcon (by simp)
        · intro hh; exact absurd hh h1
      · rw [hc]
        constructor
        · intro hcon; exact absurd hcon (by simp)
        · intro hh; exact absurd hh h2
      · intro s chunks fin ab key
        constructor
        · intro hr
          exfalso
          cases ho : (stream_response (s.messages ++ [("user", input)]) s.chat_history input
              chunks fin ab key).outcome <;>
            simp [runStep, get_input, hc, ho] at hr
        · intro hcon; rw [hc] at hcon; exact absurd hcon (by simp)

/-- Claim C8 witness: the concrete inputs named by the spec — `"Exit"`,
`" quit "`, `":q"`, `":wq"` terminate, `"exitnow"` is a message,
`"CLEAR"` clears — and one loop iteration on `" quit "` exits. -/
theorem C8_witness :
    classify "Exit" = Command.exitCmd ∧ classify " quit " = Command.exitCmd ∧
    classify ":q" = Command.exitCmd ∧ classify ":wq" = Command.exitCmd ∧
    classify "exitnow" = Command.message ∧ classify "CLEAR" = Command.clearCmd ∧
    runStep ⟨[], [], false⟩ (InputEvent.line " quit ") [] none (fun _ => false)
        (fun _ => none) = StepResult.exiting := by
  refine ⟨(C8_command_classification "Exit").1.mpr (by decide),
    (C8_command_classification " quit ").1.mpr (by decide),
    (C8_command_classification ":q").1.mpr (by decide),
    (C8_command_classification ":wq").1.mpr (by decide),
    (C8_command_classification "exitnow").2.2.1.mpr (by decide),
    (C8_command_classification "CLEAR").2.1.mpr (by decide),
    ((C8_command_classification " quit ").2.2.2 ⟨[], [], false⟩ [] none (fun _ => false)
      (fun _ => none)).mpr ((C8_command_classification " quit ").1.mpr (by decide))⟩

/-- Claim C9: an input classifying as the clear command resets, from
any prior state, the displayed conversation to empty, the Transport
Log to empty, and installs a fresh un-cancelled abort event, then
continues awaiting input; the resulting state does not depend on the
prior state. -/
theorem C9_clear (s t : ChatState) (input : String) (chunks : List String) (fin : Option Unit)
    (ab : Nat → Bool) (key : Nat → Option Nat)
    (hc : classify input = Command.clearCmd) :
    runStep s (InputEvent.line input) chunks fin ab key =
      StepResult.continueLoop ⟨[], [], false⟩ ∧
    initialize_chat s = ⟨[], [], false⟩ ∧
    initialize_chat s = initialize_chat t := by
  refine ⟨?_, rfl, rfl⟩
  simp [runStep, get_input, hc, initialize_chat]

/-- Claim C9 witness: clearing from a populated state with a set abort
event, via the whitespace-and-case variant `" Clear "`. -/
theorem C9_witness :
    runStep ⟨[("user", "x"), ("assistant", "y")], [⟨"user", "x"⟩], true⟩
        (InputEvent.line " Clear ") ["z"] (some ()) (fun _ => true) (fun _ => some 3) =
      StepResult.continueLoop ⟨[], [], false⟩ := by
  exact (C9_clear ⟨[("user", "x"), ("assistant", "y")], [⟨"user", "x"⟩], true⟩
    ⟨[], [], false⟩ " Clear " ["z"] (some ()) (fun _ => true) (fun _ => some 3) rfl).1

/-- Claim C10: a keyboard interrupt during line input yields the empty
string, which is not a recognized command and is dispatched as a user
message: it is appended as a user turn to both the Conversation View
list and the Transport Log, and the request payload sent to the model
carries the empty-content user entry. -/
theorem C10_interrupt_empty (s : ChatState) (chunks : List String)
    (ab : Nat → Bool) (key : Nat → Option Nat)
    (hab : ∀ i, ab i = false) (hkey : ∀ i, key i = none) :
    get_input InputEvent.interrupt = "" ∧
    classify "" = Command.message ∧
    (stream_response (s.messages ++ [("user", "")]) s.chat_history "" chunks none
        ab key).requestMessages = s.chat_history ++ [⟨"user", ""⟩] ∧
    runStep s InputEvent.interrupt chunks none ab key =
      StepResult.continueLoop ⟨s.messages ++ [("user", ""), ("assistant", sjoin chunks)],
        s.chat_history ++ [⟨"user", ""⟩, ⟨"assistant", sjoin chunks⟩], false⟩ := by
  have h := streamLoop_clean ab key hab hkey chunks 0 "" (s.messages ++ [("user", "")])
    (s.chat_history ++ [⟨"user", ""⟩])
  have hsr : stream_response (s.messages ++ [("user", "")]) s.chat_history "" chunks none
      ab key =
      ⟨(s.messages ++ [("user", "")]) ++ [("assistant", sjoin chunks)],
        (s.chat_history ++ [⟨"user", ""⟩]) ++ [⟨"assistant", sjoin chunks⟩],
        prefixList "" chunks, Outcome.completed, none,
        s.chat_history ++ [⟨"user", ""⟩]⟩ := by
    simpa [stream_response, String.empty_append] using h
  refine ⟨rfl, rfl, by rw [hsr], ?_⟩
  simp only [runStep, get_input, show classify "" = Command.message from rfl]
  rw [hsr]
  simp

/-- Claim C10 witness: a keyboard interrupt from a populated state
leads to an empty user turn in both logs and a completed assistant
reply. -/
theorem C10_witness :
    runStep ⟨[("user", "hi"), ("assistant", "Hello")], [⟨"user", "hi"⟩, ⟨"assistant", "Hello"⟩],
        false⟩ InputEvent.interrupt ["Ok"] none (fun _ => false) (fun _ => none) =
      StepResult.continueLoop
        ⟨[("user", "hi"), ("assistant", "Hello"), ("user", ""), ("assistant", "Ok")],
          [⟨"user", "hi"⟩, ⟨"assistant", "Hello"⟩, ⟨"user", ""⟩, ⟨"assistant", "Ok"⟩],
          false⟩ := by
  have h := (C10_interrupt_empty ⟨[("user", "hi"), ("assistant", "Hello")],
    [⟨"user", "hi"⟩, ⟨"assistant", "Hello"⟩], false⟩ ["Ok"] (fun _ => false) (fun _ => none)
    (fun _ => rfl) (fun _ => rfl)).2.2.2
  simpa using h

end OllamaClientCli
